import Mathlib

/-!
Shallow embedding of the `reborrow` repository: the trait library
(`src/reborrow/src/lib.rs`, `src/src/lib.rs`) and the derive-macro code
generator (`src/reborrow-derive/src/lib.rs`).

The generator consumes a `DeriveInput` (mirroring the `syn` data the macro
inspects) and produces structural descriptions of the emitted trait
implementations: target types and method bodies.  The trait library's
built-in instances for references, `Option` and `Result` are embedded as
Lean functions and structural records translated from the source impls.
-/

namespace ReborrowSpec

/-!
Built-in instances of the View Contract for plain references
(`src/reborrow/src/lib.rs`, lines 158-228).  Each impl is embedded as a
record of its `Self` type, its declared `Target` type, and its method
body; reference types are represented symbolically with their lifetime
name and mutability.
-/

/-!
Built-in instances for the two structural containers
(`src/reborrow/src/lib.rs`, lines 230-321).  The generic impls are
embedded as higher-order functions parameterized by the payload types'
operations.
-/

/-!
Semantics of generated construction bodies.  A record value is an
environment assigning a value to each field position, tagged with the
declared field names; generated expressions are evaluated against it,
with the three contract operations interpreted by supplied functions
indexed by the field's type tokens.
-/

/-!  Helper lemmas. -/

/-!  Concrete inputs used as witnesses, modeled on `src/example/src/main.rs`. -/

/-!  Support lemmas for the named/positional equivalence claim. -/

/-- Generic parameter of a record declaration: a lifetime or an ordinary
type parameter (mirrors `syn::GenericParam` as used by the macro). -/
inductive GenericParam
  | lifetime (name : String)
  | typeParam (name : String)
deriving DecidableEq

/-- Attribute on a declaration or a field.  The macro only ever inspects the
first path segment's identifier, whether that segment carries path
arguments, and (for `Const`) the raw token string. -/
structure Attr where
  pathIdent : String
  pathArgsNone : Bool
  tokens : String
deriving DecidableEq

/-- A record field: optional name (`None` for positional fields), type
tokens, and its attributes (mirrors `syn::Field`). -/
structure Field where
  ident : Option String
  ty : String
  attrs : List Attr
deriving DecidableEq

/-- Field layout of a struct (mirrors `syn::Fields`). -/
inductive Fields
  | named (fs : List Field)
  | unnamed (fs : List Field)
  | unit
deriving DecidableEq

/-- Declaration shape (mirrors `syn::Data`). -/
inductive Data
  | struct_ (fields : Fields)
  | enum_
  | union_
deriving DecidableEq

/-- Input to a derive macro (mirrors the parts of `syn::DeriveInput` that
the generator reads). -/
structure DeriveInput where
  ident : String
  attrs : List Attr
  generics : List GenericParam
  data : Data
deriving DecidableEq

/-- How a generated expression refers to a field of `self`. -/
inductive FieldRef
  | byName (n : String)
  | byIndex (i : Nat)
deriving DecidableEq

/-- A generated field expression: either the plain field access
(`self.name` / `self.idx`) or a contract-operation call applied to it
(`<ty as ReborrowMut>::rb_mut(&mut e)`, `<ty as Reborrow>::rb(&e)`,
`<ty as IntoConst>::into_const(e)`). -/
inductive Expr
  | fieldAccess (r : FieldRef)
  | callRbMut (ty : String) (arg : Expr)
  | callRb (ty : String) (arg : Expr)
  | callIntoConst (ty : String) (arg : Expr)
deriving DecidableEq

/-- A generated method body that constructs a value of the target type:
named-field construction, tuple construction, or unit construction.  The
stored generics are the type arguments written on the constructed path. -/
inductive Body
  | namedCtor (tyName : String) (generics : List GenericParam)
      (fields : List (Option String × Expr))
  | tupleCtor (tyName : String) (generics : List GenericParam)
      (fields : List Expr)
  | unitCtor (tyName : String) (generics : List GenericParam)
deriving DecidableEq

/-- A generated or built-in method body that does not construct a record:
a delegation to `rb_mut`/`rb` on `self`, a dereference `*self`, or `self`
returned by value. -/
inductive PlainBody
  | callRbMutSelf
  | callRbSelf
  | derefSelf
  | selfExpr
deriving DecidableEq

/-- A reference to a type together with the generic arguments applied to
it, as written in a generated `type Target = ...;` item. -/
structure TypeRef where
  name : String
  generics : List GenericParam
deriving DecidableEq

/-- The structural content of the impl block group emitted by
`derive_reborrow` (`ReborrowTraits`): targets and bodies of `IntoConst`,
`ReborrowMut`, `Reborrow`, and the bodies of the two adapters. -/
structure ReborrowImpls where
  intoConstTarget : TypeRef
  intoConstBody : Body
  rbMutTarget : TypeRef
  rbMutBody : Body
  rbTarget : TypeRef
  rbBody : Body
  asGeneralizedMutBody : PlainBody
  asGeneralizedRefBody : PlainBody
deriving DecidableEq

/-- The structural content of the impl block group emitted by
`derive_reborrow_copy` (`ReborrowCopyTraits`): the `Copy` impl, the
`Clone` body, and the five operation impls. -/
structure ReborrowCopyImpls where
  copyImplFor : TypeRef
  cloneBody : PlainBody
  intoConstTarget : TypeRef
  intoConstBody : PlainBody
  rbMutTarget : TypeRef
  rbMutBody : PlainBody
  rbTarget : TypeRef
  rbBody : PlainBody
  asGeneralizedMutBody : PlainBody
  asGeneralizedRefBody : PlainBody
deriving DecidableEq

/-- The fresh lifetime both derives substitute for every original lifetime
parameter (source: `Lifetime::new("'__reborrow_lifetime", ...)`). -/
def reborrowedLifetime : String := "'__reborrow_lifetime"

/-- Lifetime substitution performed on the cloned generics: every lifetime
parameter is overwritten with the fresh reborrow lifetime, other parameters
are kept (source: the `for lt in target_ty_generics.lifetimes_mut()` loop
in both derive functions). -/
def substLifetimes (g : List GenericParam) : List GenericParam :=
  g.map fun p =>
    match p with
    | GenericParam.lifetime _ => GenericParam.lifetime reborrowedLifetime
    | p' => p'

/-- Field-level policy test: the field is reborrowable exactly when it
carries an attribute whose first path segment is the bare identifier
`reborrow` (source: the `is_reborrowable` computation in
`reborrow_exprs`). -/
def is_reborrowable (f : Field) : Bool :=
  f.attrs.any fun attr => attr.pathArgsNone && attr.pathIdent == "reborrow"

/-- Per-field expression generation (source: `fn reborrow_exprs`): computes
the field's access expression from its name or index, then returns it
unchanged three times for a direct field, or wrapped in the three contract
operation calls for a reborrowable field. -/
def reborrow_exprs (idx : Nat) (f : Field) : Expr × Expr × Expr :=
  let expr :=
    match f.ident with
    | some id => Expr.fieldAccess (FieldRef.byName id)
    | none => Expr.fieldAccess (FieldRef.byIndex idx)
  if !(is_reborrowable f) then
    (expr, expr, expr)
  else
    (Expr.callRbMut f.ty expr, Expr.callRb f.ty expr, Expr.callIntoConst f.ty expr)

/-- Three-way unzip (source: `fn unzip3`). -/
def unzip3 {α β γ : Type} : List (α × β × γ) → List α × List β × List γ
  | [] => ([], [], [])
  | (a, b, c) :: t =>
    let (v0, v1, v2) := unzip3 t
    (a :: v0, b :: v1, c :: v2)

/-- Lookup of the declaration-level `Const` attribute (source: the
`input.attrs.iter().find(...)` in `derive_reborrow`, matching a first path
segment with no path arguments and identifier `Const`). -/
def findConstAttr (attrs : List Attr) : Option Attr :=
  attrs.find? fun attr => attr.pathArgsNone && attr.pathIdent == "Const"

/-- Parse of the `Const` attribute tokens as a parenthesized type (source:
`syn::parse2::<syn::TypeParen>(const_name).unwrap()`); yields the inner
type tokens when the token string is parenthesized. -/
def parseTypeParen (s : String) : Option String :=
  if s.length ≥ 2 && s.front == '(' && s.back == ')' then
    some ((s.drop 1).dropRight 1)
  else
    none

/-- The `ReborrowTraits` derive (source: `fn derive_reborrow`): looks up
the required `Const` counterpart type, substitutes the fresh lifetime into
the generics, dispatches on the declaration shape to build the three
construction bodies via `reborrow_exprs`, and assembles the five impls.
Panics in the source are modelled as `Except.error`. -/
def derive_reborrow (input : DeriveInput) : Except String ReborrowImpls :=
  match findConstAttr input.attrs with
  | none => Except.error "Const reborrowed type must be specified."
  | some constAttr =>
    match parseTypeParen constAttr.tokens with
    | none => Except.error "Const attribute tokens do not parse as a parenthesized type."
    | some const_name =>
      let name := input.ident
      let target_ty_generics := substLifetimes input.generics
      let ty_generics := input.generics
      let bodies : Except String (Body × Body × Body) :=
        match input.data with
        | Data.struct_ (Fields.named f) =>
          let names := f.map Field.ident
          let (f0, f1, f2) := unzip3 (f.enum.map fun p => reborrow_exprs p.1 p.2)
          Except.ok
            (Body.namedCtor name target_ty_generics (names.zip f0),
             Body.namedCtor const_name target_ty_generics (names.zip f1),
             Body.namedCtor const_name ty_generics (names.zip f2))
        | Data.struct_ (Fields.unnamed f) =>
          let (f0, f1, f2) := unzip3 (f.enum.map fun p => reborrow_exprs p.1 p.2)
          Except.ok
            (Body.tupleCtor name target_ty_generics f0,
             Body.tupleCtor const_name target_ty_generics f1,
             Body.tupleCtor const_name ty_generics f2)
        | Data.struct_ Fields.unit =>
          Except.ok
            (Body.unitCtor name target_ty_generics,
             Body.unitCtor const_name target_ty_generics,
             Body.unitCtor const_name target_ty_generics)
        | Data.enum_ => Except.error "reborrow-derive does not support enums."
        | Data.union_ => Except.error "reborrow-derive does not support unions."
      match bodies with
      | Except.error e => Except.error e
      | Except.ok (rb_mut, rb, into_const) =>
        Except.ok
          { intoConstTarget := ⟨const_name, ty_generics⟩
            intoConstBody := into_const
            rbMutTarget := ⟨name, target_ty_generics⟩
            rbMutBody := rb_mut
            rbTarget := ⟨const_name, target_ty_generics⟩
            rbBody := rb
            asGeneralizedMutBody := PlainBody.callRbMutSelf
            asGeneralizedRefBody := PlainBody.callRbSelf }

/-- The `ReborrowCopyTraits` derive (source: `fn derive_reborrow_copy`):
never inspects the field data and never fails; emits `Copy`, `Clone`
(cloning by `*self`), `IntoConst` targeting the record's own type at its
original generics with body `self`, `ReborrowMut`/`Reborrow` targeting the
record's own type at the substituted generics with body `*self`, and both
adapters with body `*self`. -/
def derive_reborrow_copy (input : DeriveInput) : ReborrowCopyImpls :=
  let name := input.ident
  let target_ty_generics := substLifetimes input.generics
  let ty_generics := input.generics
  { copyImplFor := ⟨name, ty_generics⟩
    cloneBody := PlainBody.derefSelf
    intoConstTarget := ⟨name, ty_generics⟩
    intoConstBody := PlainBody.selfExpr
    rbMutTarget := ⟨name, target_ty_generics⟩
    rbMutBody := PlainBody.derefSelf
    rbTarget := ⟨name, target_ty_generics⟩
    rbBody := PlainBody.derefSelf
    asGeneralizedMutBody := PlainBody.derefSelf
    asGeneralizedRefBody := PlainBody.derefSelf }

/-- The counterpart type name obtained from the input's attributes: the
`Const` attribute's tokens parsed as a parenthesized type. -/
def getConstName (input : DeriveInput) : Option String :=
  (findConstAttr input.attrs).bind fun a => parseTypeParen a.tokens

/-- Symbolic Rust type: a base type or a reference with a lifetime and a
mutability flag. -/
inductive RustTy
  | base (name : String)
  | ref (lt : String) (isMut : Bool) (ty : RustTy)
deriving DecidableEq

/-- A built-in trait impl for a reference type: the implementing type, the
declared `Target` associated type, and the method body. -/
structure BuiltinImpl where
  selfTy : RustTy
  target : RustTy
  body : PlainBody
deriving DecidableEq

/-- Source: `impl Reborrow for &'a T` with `Target = &'short T` and body
`*self`. -/
def sharedRefReborrow (short a : String) (T : RustTy) : BuiltinImpl :=
  ⟨RustTy.ref a false T, RustTy.ref short false T, PlainBody.derefSelf⟩

/-- Source: `impl ReborrowMut for &'a T` with `Target = &'short T` and
body `*self`. -/
def sharedRefReborrowMut (short a : String) (T : RustTy) : BuiltinImpl :=
  ⟨RustTy.ref a false T, RustTy.ref short false T, PlainBody.derefSelf⟩

/-- Source: `impl IntoConst for &'a T` with `Target = &'a T` and body
`self`. -/
def sharedRefIntoConst (a : String) (T : RustTy) : BuiltinImpl :=
  ⟨RustTy.ref a false T, RustTy.ref a false T, PlainBody.selfExpr⟩

/-- Source: `impl Reborrow for &'a mut T` with `Target = &'short T` and
body `*self`. -/
def mutRefReborrow (short a : String) (T : RustTy) : BuiltinImpl :=
  ⟨RustTy.ref a true T, RustTy.ref short false T, PlainBody.derefSelf⟩

/-- Source: `impl ReborrowMut for &'a mut T` with `Target = &'short mut T`
and body `*self`. -/
def mutRefReborrowMut (short a : String) (T : RustTy) : BuiltinImpl :=
  ⟨RustTy.ref a true T, RustTy.ref short true T, PlainBody.derefSelf⟩

/-- Source: `impl IntoConst for &'a mut T` with `Target = &'a T` and body
`self`. -/
def mutRefIntoConst (a : String) (T : RustTy) : BuiltinImpl :=
  ⟨RustTy.ref a true T, RustTy.ref a false T, PlainBody.selfExpr⟩

/-- Value semantics of a `PlainBody` on a receiver: delegation bodies
apply the supplied interpretation of `rb_mut`/`rb`; `*self` and `self`
both yield the receiver's value (for `Copy` data and references, `*self`
is a bitwise copy of the receiver). -/
def evalPlain {V : Type} (rbMutF rbF : V → V) : PlainBody → V → V
  | PlainBody.callRbMutSelf, v => rbMutF v
  | PlainBody.callRbSelf, v => rbF v
  | PlainBody.derefSelf, v => v
  | PlainBody.selfExpr, v => v

/-- Source: `impl Reborrow for Option<T>`, body
`match self { None => None, Some(x) => Some(x.rb()) }`. -/
def optionRb {α α' : Type} (rbT : α → α') : Option α → Option α'
  | none => none
  | some x => some (rbT x)

/-- Source: `impl ReborrowMut for Option<T>`, body
`match self { None => None, Some(x) => Some(x.rb_mut()) }`. -/
def optionRbMut {α α' : Type} (rbMutT : α → α') : Option α → Option α'
  | none => none
  | some x => some (rbMutT x)

/-- Source: `impl IntoConst for Option<T>`, body
`match self { None => None, Some(x) => Some(x.into_const()) }`. -/
def optionIntoConst {α α' : Type} (intoConstT : α → α') : Option α → Option α'
  | none => none
  | some x => some (intoConstT x)

/-- Rust's `Result<T, E>` success-or-error container. -/
inductive RustResult (α ε : Type)
  | ok (v : α)
  | err (e : ε)
deriving DecidableEq

/-- Whether a `RustResult` is the success variant. -/
def RustResult.isOk {α ε : Type} : RustResult α ε → Bool
  | RustResult.ok _ => true
  | RustResult.err _ => false

/-- Source: `impl Reborrow for Result<T, E>`, body
`match self { Ok(v) => Ok(v.rb()), Err(e) => Err(e.rb()) }`. -/
def resultRb {α α' ε ε' : Type} (rbT : α → α') (rbE : ε → ε') :
    RustResult α ε → RustResult α' ε'
  | RustResult.ok v => RustResult.ok (rbT v)
  | RustResult.err e => RustResult.err (rbE e)

/-- Source: `impl ReborrowMut for Result<T, E>`, body
`match self { Ok(v) => Ok(v.rb_mut()), Err(e) => Err(e.rb_mut()) }`. -/
def resultRbMut {α α' ε ε' : Type} (rbMutT : α → α') (rbMutE : ε → ε') :
    RustResult α ε → RustResult α' ε'
  | RustResult.ok v => RustResult.ok (rbMutT v)
  | RustResult.err e => RustResult.err (rbMutE e)

/-- Source: `impl IntoConst for Result<T, E>`, body
`match self { Ok(v) => Ok(v.into_const()), Err(e) => Err(e.into_const()) }`. -/
def resultIntoConst {α α' ε ε' : Type} (icT : α → α') (icE : ε → ε') :
    RustResult α ε → RustResult α' ε'
  | RustResult.ok v => RustResult.ok (icT v)
  | RustResult.err e => RustResult.err (icE e)

/-- Interpretations of the three contract operations, indexed by the type
tokens they are invoked at. -/
structure FieldOps (V : Type) where
  rbMutOp : String → V → V
  rbOp : String → V → V
  intoConstOp : String → V → V

/-- Rust named-field access semantics: the value stored under the first
binding of the given field name. -/
def lookupNamed {V : Type} (n : String) : List (Option String × V) → Option V
  | [] => none
  | (some m, v) :: t => if m == n then some v else lookupNamed n t
  | (none, _) :: t => lookupNamed n t

/-- Evaluation of a generated field expression against a record
environment. -/
def evalExpr {V : Type} (ops : FieldOps V) (env : List (Option String × V)) :
    Expr → Option V
  | Expr.fieldAccess (FieldRef.byName n) => lookupNamed n env
  | Expr.fieldAccess (FieldRef.byIndex i) => (env.get? i).map Prod.snd
  | Expr.callRbMut ty e => (evalExpr ops env e).map (ops.rbMutOp ty)
  | Expr.callRb ty e => (evalExpr ops env e).map (ops.rbOp ty)
  | Expr.callIntoConst ty e => (evalExpr ops env e).map (ops.intoConstOp ty)

/-- Evaluation of a list of expressions, all-or-nothing. -/
def evalExprs {V : Type} (ops : FieldOps V) (env : List (Option String × V)) :
    List Expr → Option (List V)
  | [] => some []
  | e :: t =>
    match evalExpr ops env e, evalExprs ops env t with
    | some v, some vs => some (v :: vs)
    | _, _ => none

/-- The ordered field expressions of a construction body. -/
def bodyExprs : Body → List Expr
  | Body.namedCtor _ _ fs => fs.map Prod.snd
  | Body.tupleCtor _ _ es => es
  | Body.unitCtor _ _ => []

/-- Evaluation of a construction body to its ordered list of field
values. -/
def evalBody {V : Type} (ops : FieldOps V) (env : List (Option String × V))
    (b : Body) : Option (List V) :=
  evalExprs ops env (bodyExprs b)

/-- The ordered field list of a struct declaration (empty for a unit
struct, `none` for enums and unions). -/
def structFields : Data → Option (List Field)
  | Data.struct_ (Fields.named fs) => some fs
  | Data.struct_ (Fields.unnamed fs) => some fs
  | Data.struct_ Fields.unit => some []
  | _ => none

/-- The access expression of the field at position `i`: named access when
the field has a name, positional-index access otherwise. -/
def accessExpr (i : Nat) (f : Field) : Expr :=
  match f.ident with
  | some n => Expr.fieldAccess (FieldRef.byName n)
  | none => Expr.fieldAccess (FieldRef.byIndex i)

/-- The attribute `#[reborrow]` marking a recurse-policy field. -/
def reborrowAttr : Attr := ⟨"reborrow", true, ""⟩

/-- The field `j: &'a mut i32` of `I32RefMut`, marked `#[reborrow]`. -/
def jField : Field := ⟨some "j", "&'a mut i32", [reborrowAttr]⟩

/-- The fields of the `I32RefMut` declaration of the example crate. -/
def i32RefMutFields : List Field :=
  [⟨some "i", "i32", []⟩, jField, ⟨some "k", "&'b mut i32", [reborrowAttr]⟩]

/-- The `I32RefMut` declaration of the example crate: a named-field record
with two lifetimes, one direct field and two reborrowable fields, paired
with `shared::I32Ref`. -/
def i32RefMutInput : DeriveInput :=
  { ident := "I32RefMut"
    attrs := [⟨"Const", true, "(shared::I32Ref)"⟩]
    generics := [GenericParam.lifetime "'a", GenericParam.lifetime "'b"]
    data := Data.struct_ (Fields.named i32RefMutFields) }

/-- The fields of the `I32TupleRefMut` declaration of the example crate. -/
def i32TupleRefMutFields : List Field :=
  [⟨none, "i32", []⟩,
   ⟨none, "&'a mut i32", [reborrowAttr]⟩,
   ⟨none, "&'b mut i32", [reborrowAttr]⟩]

/-- The `I32TupleRefMut` declaration of the example crate: the positional
twin of `i32RefMutInput` (same field types and policies, tuple layout). -/
def i32TupleRefMutInput : DeriveInput :=
  { ident := "I32TupleRefMut"
    attrs := [⟨"Const", true, "(shared::I32TupleRef)"⟩]
    generics := [GenericParam.lifetime "'a", GenericParam.lifetime "'b"]
    data := Data.struct_ (Fields.unnamed i32TupleRefMutFields) }

/-- The impl group `derive_reborrow` produces for `i32RefMutInput`. -/
def i32RefMutImpls : ReborrowImpls :=
  { intoConstTarget := ⟨"shared::I32Ref",
      [GenericParam.lifetime "'a", GenericParam.lifetime "'b"]⟩
    intoConstBody := Body.namedCtor "shared::I32Ref"
      [GenericParam.lifetime "'a", GenericParam.lifetime "'b"]
      [(some "i", Expr.fieldAccess (FieldRef.byName "i")),
       (some "j", Expr.callIntoConst "&'a mut i32"
          (Expr.fieldAccess (FieldRef.byName "j"))),
       (some "k", Expr.callIntoConst "&'b mut i32"
          (Expr.fieldAccess (FieldRef.byName "k")))]
    rbMutTarget := ⟨"I32RefMut",
      [GenericParam.lifetime reborrowedLifetime, GenericParam.lifetime reborrowedLifetime]⟩
    rbMutBody := Body.namedCtor "I32RefMut"
      [GenericParam.lifetime reborrowedLifetime, GenericParam.lifetime reborrowedLifetime]
      [(some "i", Expr.fieldAccess (FieldRef.byName "i")),
       (some "j", Expr.callRbMut "&'a mut i32"
          (Expr.fieldAccess (FieldRef.byName "j"))),
       (some "k", Expr.callRbMut "&'b mut i32"
          (Expr.fieldAccess (FieldRef.byName "k")))]
    rbTarget := ⟨"shared::I32Ref",
      [GenericParam.lifetime reborrowedLifetime, GenericParam.lifetime reborrowedLifetime]⟩
    rbBody := Body.namedCtor "shared::I32Ref"
      [GenericParam.lifetime reborrowedLifetime, GenericParam.lifetime reborrowedLifetime]
      [(some "i", Expr.fieldAccess (FieldRef.byName "i")),
       (some "j", Expr.callRb "&'a mut i32"
          (Expr.fieldAccess (FieldRef.byName "j"))),
       (some "k", Expr.callRb "&'b mut i32"
          (Expr.fieldAccess (FieldRef.byName "k")))]
    asGeneralizedMutBody := PlainBody.callRbMutSelf
    asGeneralizedRefBody := PlainBody.callRbSelf }

/-- A unit-struct declaration with one lifetime parameter, paired with a
counterpart type `MConst`. -/
def unitLifetimeInput : DeriveInput :=
  { ident := "M"
    attrs := [⟨"Const", true, "(MConst)"⟩]
    generics := [GenericParam.lifetime "'a"]
    data := Data.struct_ Fields.unit }

/-- A union declaration carrying a well-formed counterpart attribute. -/
def unionInput : DeriveInput :=
  { ident := "U"
    attrs := [⟨"Const", true, "(UConst)"⟩]
    generics := []
    data := Data.union_ }

/-- An enum declaration carrying a well-formed counterpart attribute. -/
def enumInput : DeriveInput :=
  { ident := "E"
    attrs := [⟨"Const", true, "(EConst)"⟩]
    generics := []
    data := Data.enum_ }

/-- A unit struct declaration with no counterpart attribute. -/
def noConstInput : DeriveInput :=
  { ident := "N"
    attrs := []
    generics := []
    data := Data.struct_ Fields.unit }

/-- The impl group `derive_reborrow` produces for `i32TupleRefMutInput`. -/
def i32TupleRefMutImpls : ReborrowImpls :=
  { intoConstTarget := ⟨"shared::I32TupleRef",
      [GenericParam.lifetime "'a", GenericParam.lifetime "'b"]⟩
    intoConstBody := Body.tupleCtor "shared::I32TupleRef"
      [GenericParam.lifetime "'a", GenericParam.lifetime "'b"]
      [Expr.fieldAccess (FieldRef.byIndex 0),
       Expr.callIntoConst "&'a mut i32" (Expr.fieldAccess (FieldRef.byIndex 1)),
       Expr.callIntoConst "&'b mut i32" (Expr.fieldAccess (FieldRef.byIndex 2))]
    rbMutTarget := ⟨"I32TupleRefMut",
      [GenericParam.lifetime reborrowedLifetime, GenericParam.lifetime reborrowedLifetime]⟩
    rbMutBody := Body.tupleCtor "I32TupleRefMut"
      [GenericParam.lifetime reborrowedLifetime, GenericParam.lifetime reborrowedLifetime]
      [Expr.fieldAccess (FieldRef.byIndex 0),
       Expr.callRbMut "&'a mut i32" (Expr.fieldAccess (FieldRef.byIndex 1)),
       Expr.callRbMut "&'b mut i32" (Expr.fieldAccess (FieldRef.byIndex 2))]
    rbTarget := ⟨"shared::I32TupleRef",
      [GenericParam.lifetime reborrowedLifetime, GenericParam.lifetime reborrowedLifetime]⟩
    rbBody := Body.tupleCtor "shared::I32TupleRef"
      [GenericParam.lifetime reborrowedLifetime, GenericParam.lifetime reborrowedLifetime]
      [Expr.fieldAccess (FieldRef.byIndex 0),
       Expr.callRb "&'a mut i32" (Expr.fieldAccess (FieldRef.byIndex 1)),
       Expr.callRb "&'b mut i32" (Expr.fieldAccess (FieldRef.byIndex 2))]
    asGeneralizedMutBody := PlainBody.callRbMutSelf
    asGeneralizedRefBody := PlainBody.callRbSelf }

/-- Concrete interpretations of the three contract operations used by the
C8 witness. -/
def c8FieldOps : FieldOps Nat :=
  ⟨fun _ v => v + 1, fun _ v => v + 2, fun _ v => v + 3⟩

theorem unzip3_eq {α β γ : Type} (l : List (α × β × γ)) :
    unzip3 l = (l.map fun x => x.1, l.map fun x => x.2.1, l.map fun x => x.2.2) := by
  induction l with
  | nil => rfl
  | cons h t ih =>
    obtain ⟨a, b, c⟩ := h
    simp [unzip3, ih]

theorem map_snd_zip_of_length_eq {α β : Type} (l₁ : List α) (l₂ : List β)
    (h : l₁.length = l₂.length) : (l₁.zip l₂).map Prod.snd = l₂ := by
  induction l₁ generalizing l₂ with
  | nil => cases l₂ with
    | nil => rfl
    | cons b t => simp at h
  | cons a t ih =>
    cases l₂ with
    | nil => simp at h
    | cons b t₂ =>
      simp only [List.zip_cons_cons, List.map_cons]
      simp only [List.length_cons, Nat.succ_inj] at h
      rw [ih t₂ h]

theorem reborrow_exprs_eq (i : Nat) (f : Field) :
    reborrow_exprs i f =
      if is_reborrowable f then
        (Expr.callRbMut f.ty (accessExpr i f), Expr.callRb f.ty (accessExpr i f),
          Expr.callIntoConst f.ty (accessExpr i f))
      else (accessExpr i f, accessExpr i f, accessExpr i f) := by
  unfold reborrow_exprs accessExpr
  cases hr : is_reborrowable f <;> cases f.ident <;> simp [hr]

theorem get?_enum_map {α β : Type} (l : List α) (g : Nat × α → β) (i : Nat) :
    ((l.enum.map g).get? i) = (l.get? i).map fun a => g (i, a) := by
  rw [List.get?_map, List.get?_enum]
  cases l.get? i <;> rfl

/-- The three construction bodies produced by a successful run of
`derive_reborrow` list, in declaration order, exactly the per-field
expressions computed by `reborrow_exprs`. -/
theorem derive_bodyExprs (input : DeriveInput) (impls : ReborrowImpls)
    (fs : List Field) (hok : derive_reborrow input = Except.ok impls)
    (hfs : structFields input.data = some fs) :
    bodyExprs impls.rbMutBody = fs.enum.map (fun p => (reborrow_exprs p.1 p.2).1)
    ∧ bodyExprs impls.rbBody = fs.enum.map (fun p => (reborrow_exprs p.1 p.2).2.1)
    ∧ bodyExprs impls.intoConstBody = fs.enum.map (fun p => (reborrow_exprs p.1 p.2).2.2) := by
  cases hfind : findConstAttr input.attrs with
  | none =>
    simp only [derive_reborrow, hfind] at hok
    exact Except.noConfusion hok
  | some constAttr =>
    cases hparse : parseTypeParen constAttr.tokens with
    | none =>
      simp only [derive_reborrow, hfind, hparse] at hok
      exact Except.noConfusion hok
    | some const_name =>
      cases hdata : input.data with
      | struct_ flds =>
        cases flds with
        | named f =>
          simp only [structFields, hdata] at hfs
          obtain rfl : f = fs := Option.some.inj hfs
          simp only [derive_reborrow, hfind, hparse, hdata, unzip3_eq,
            Except.ok.injEq] at hok
          subst hok
          refine ⟨?_, ?_, ?_⟩ <;>
            · simp only [bodyExprs, List.map_map]
              rw [map_snd_zip_of_length_eq _ _ (by simp)]
              exact rfl
        | unnamed f =>
          simp only [structFields, hdata] at hfs
          obtain rfl : f = fs := Option.some.inj hfs
          simp only [derive_reborrow, hfind, hparse, hdata, unzip3_eq,
            Except.ok.injEq] at hok
          subst hok
          refine ⟨?_, ?_, ?_⟩ <;>
            · simp only [bodyExprs, List.map_map]
              exact rfl
        | unit =>
          simp only [structFields, hdata] at hfs
          obtain rfl : ([] : List Field) = fs := Option.some.inj hfs
          simp only [derive_reborrow, hfind, hparse, hdata, Except.ok.injEq] at hok
          subst hok
          exact ⟨rfl, rfl, rfl⟩
      | enum_ =>
        simp only [derive_reborrow, hfind, hparse, hdata] at hok
        exact Except.noConfusion hok
      | union_ =>
        simp only [derive_reborrow, hfind, hparse, hdata] at hok
        exact Except.noConfusion hok

example : derive_reborrow i32RefMutInput = Except.ok i32RefMutImpls := rfl

/-- A successful run of `derive_reborrow` emits impls whose target types
and adapter bodies are determined by the input's name, generics and
counterpart attribute. -/
theorem derive_structure (input : DeriveInput) (impls : ReborrowImpls)
    (hok : derive_reborrow input = Except.ok impls) :
    ∃ c, getConstName input = some c
      ∧ impls.intoConstTarget = ⟨c, input.generics⟩
      ∧ impls.rbMutTarget = ⟨input.ident, substLifetimes input.generics⟩
      ∧ impls.rbTarget = ⟨c, substLifetimes input.generics⟩
      ∧ impls.asGeneralizedMutBody = PlainBody.callRbMutSelf
      ∧ impls.asGeneralizedRefBody = PlainBody.callRbSelf := by
  cases hfind : findConstAttr input.attrs with
  | none =>
    simp only [derive_reborrow, hfind] at hok
    exact Except.noConfusion hok
  | some constAttr =>
    cases hparse : parseTypeParen constAttr.tokens with
    | none =>
      simp only [derive_reborrow, hfind, hparse] at hok
      exact Except.noConfusion hok
    | some c =>
      refine ⟨c, by simp [getConstName, hfind, hparse], ?_⟩
      cases hdata : input.data with
      | struct_ flds =>
        cases flds with
        | named f =>
          simp only [derive_reborrow, hfind, hparse, hdata, Except.ok.injEq] at hok
          subst hok
          exact ⟨rfl, rfl, rfl, rfl, rfl⟩
        | unnamed f =>
          simp only [derive_reborrow, hfind, hparse, hdata, Except.ok.injEq] at hok
          subst hok
          exact ⟨rfl, rfl, rfl, rfl, rfl⟩
        | unit =>
          simp only [derive_reborrow, hfind, hparse, hdata, Except.ok.injEq] at hok
          subst hok
          exact ⟨rfl, rfl, rfl, rfl, rfl⟩
      | enum_ =>
        simp only [derive_reborrow, hfind, hparse, hdata] at hok
        exact Except.noConfusion hok
      | union_ =>
        simp only [derive_reborrow, hfind, hparse, hdata] at hok
        exact Except.noConfusion hok

/-- Claim C1: for every record declaration consumed by the generator and
every field of it, each of the three generated operations handles the
field by its policy: a direct field's access expression (named or
positional-index access) is emitted unchanged into the corresponding
position of the result, and a recurse field gets the contract operation
matching the one being generated (`rb_mut` inside `rb_mut`, `rb` inside
`rb`, `into_const` inside `into_const`) applied to its expression, with
per-field results assembled in field order; a field is recurse exactly
when it carries the `reborrow` attribute. -/
theorem c1_field_policy_dispatch (input : DeriveInput) (impls : ReborrowImpls)
    (fs : List Field) (f : Field) (i : Nat)
    (hok : derive_reborrow input = Except.ok impls)
    (hfs : structFields input.data = some fs)
    (hf : fs.get? i = some f) :
    (bodyExprs impls.rbMutBody).get? i =
      some (if is_reborrowable f then Expr.callRbMut f.ty (accessExpr i f)
        else accessExpr i f)
    ∧ (bodyExprs impls.rbBody).get? i =
      some (if is_reborrowable f then Expr.callRb f.ty (accessExpr i f)
        else accessExpr i f)
    ∧ (bodyExprs impls.intoConstBody).get? i =
      some (if is_reborrowable f then Expr.callIntoConst f.ty (accessExpr i f)
        else accessExpr i f) := by
  obtain ⟨h1, h2, h3⟩ := derive_bodyExprs input impls fs hok hfs
  refine ⟨?_, ?_, ?_⟩
  · rw [h1, get?_enum_map, hf]
    cases hr : is_reborrowable f <;> simp [reborrow_exprs_eq, hr]
  · rw [h2, get?_enum_map, hf]
    cases hr : is_reborrowable f <;> simp [reborrow_exprs_eq, hr]
  · rw [h3, get?_enum_map, hf]
    cases hr : is_reborrowable f <;> simp [reborrow_exprs_eq, hr]

/-- Witness for C1 at the example declaration `I32RefMut`, field `j`
(position 1, recurse policy). -/
theorem c1_field_policy_dispatch_witness :
    derive_reborrow i32RefMutInput = Except.ok i32RefMutImpls
    ∧ structFields i32RefMutInput.data = some i32RefMutFields
    ∧ i32RefMutFields.get? 1 = some jField
    ∧ ((bodyExprs i32RefMutImpls.rbMutBody).get? 1 =
        some (if is_reborrowable jField then Expr.callRbMut jField.ty (accessExpr 1 jField)
          else accessExpr 1 jField)
      ∧ (bodyExprs i32RefMutImpls.rbBody).get? 1 =
        some (if is_reborrowable jField then Expr.callRb jField.ty (accessExpr 1 jField)
          else accessExpr 1 jField)
      ∧ (bodyExprs i32RefMutImpls.intoConstBody).get? 1 =
        some (if is_reborrowable jField then Expr.callIntoConst jField.ty (accessExpr 1 jField)
          else accessExpr 1 jField)) :=
  ⟨rfl, rfl, rfl,
    c1_field_policy_dispatch i32RefMutInput i32RefMutImpls i32RefMutFields jField 1
      rfl rfl rfl⟩

/-- Claim C2: for every record with N lifetime parameters, the narrowing
targets substitute one single fresh shorter lifetime uniformly for all N
lifetime parameters: `rb_mut` targets the same record type at the
substituted generics, `rb` targets the paired counterpart type at the same
substituted generics; every lifetime parameter maps to the one fresh
lifetime, other parameters and parameter count are preserved.  The same
uniform substitution governs the copy-mode derive's targets (where the
record is its own counterpart). -/
theorem c2_lifetime_collapse (input : DeriveInput) (impls : ReborrowImpls)
    (hok : derive_reborrow input = Except.ok impls) :
    (∃ c, getConstName input = some c
      ∧ impls.rbMutTarget = ⟨input.ident, substLifetimes input.generics⟩
      ∧ impls.rbTarget = ⟨c, substLifetimes input.generics⟩)
    ∧ (∀ i n, input.generics.get? i = some (GenericParam.lifetime n) →
        (substLifetimes input.generics).get? i
          = some (GenericParam.lifetime reborrowedLifetime))
    ∧ (∀ i s, input.generics.get? i = some (GenericParam.typeParam s) →
        (substLifetimes input.generics).get? i = some (GenericParam.typeParam s))
    ∧ (substLifetimes input.generics).length = input.generics.length
    ∧ (derive_reborrow_copy input).rbMutTarget
        = ⟨input.ident, substLifetimes input.generics⟩
    ∧ (derive_reborrow_copy input).rbTarget
        = ⟨input.ident, substLifetimes input.generics⟩ := by
  obtain ⟨c, hc, _, hmt, hrt, _, _⟩ := derive_structure input impls hok
  refine ⟨⟨c, hc, hmt, hrt⟩, ?_, ?_, ?_, rfl, rfl⟩
  · intro i n hi
    simp only [substLifetimes]
    rw [List.get?_map, hi]
    rfl
  · intro i s hi
    simp only [substLifetimes]
    rw [List.get?_map, hi]
    rfl
  · simp [substLifetimes]

/-- Witness for C2 at the example declaration `I32RefMut` (two lifetime
parameters). -/
theorem c2_lifetime_collapse_witness :
    derive_reborrow i32RefMutInput = Except.ok i32RefMutImpls
    ∧ ((∃ c, getConstName i32RefMutInput = some c
        ∧ i32RefMutImpls.rbMutTarget
            = ⟨i32RefMutInput.ident, substLifetimes i32RefMutInput.generics⟩
        ∧ i32RefMutImpls.rbTarget = ⟨c, substLifetimes i32RefMutInput.generics⟩)
      ∧ (∀ i n, i32RefMutInput.generics.get? i = some (GenericParam.lifetime n) →
          (substLifetimes i32RefMutInput.generics).get? i
            = some (GenericParam.lifetime reborrowedLifetime))
      ∧ (∀ i s, i32RefMutInput.generics.get? i = some (GenericParam.typeParam s) →
          (substLifetimes i32RefMutInput.generics).get? i
            = some (GenericParam.typeParam s))
      ∧ (substLifetimes i32RefMutInput.generics).length
          = i32RefMutInput.generics.length
      ∧ (derive_reborrow_copy i32RefMutInput).rbMutTarget
          = ⟨i32RefMutInput.ident, substLifetimes i32RefMutInput.generics⟩
      ∧ (derive_reborrow_copy i32RefMutInput).rbTarget
          = ⟨i32RefMutInput.ident, substLifetimes i32RefMutInput.generics⟩) :=
  ⟨rfl, c2_lifetime_collapse i32RefMutInput i32RefMutImpls rfl⟩

/-- Claim C7: besides the three contract operations, the generator's
output contains the two adapter operations, each expressed in terms of
the first two generated operations: `as_generalized_ref` returns exactly
the result of the generated `rb`, and `as_generalized_mut` exactly the
result of the generated `rb_mut`, for every receiver value. -/
theorem c7_adapters_delegate (input : DeriveInput) (impls : ReborrowImpls)
    (hok : derive_reborrow input = Except.ok impls) :
    impls.asGeneralizedRefBody = PlainBody.callRbSelf
    ∧ impls.asGeneralizedMutBody = PlainBody.callRbMutSelf
    ∧ ∀ (V : Type) (rbMutF rbF : V → V) (recv : V),
        evalPlain rbMutF rbF impls.asGeneralizedRefBody recv = rbF recv
        ∧ evalPlain rbMutF rbF impls.asGeneralizedMutBody recv = rbMutF recv := by
  obtain ⟨c, _, _, _, _, hamb, harb⟩ := derive_structure input impls hok
  refine ⟨harb, hamb, fun V rbMutF rbF recv => ?_⟩
  rw [harb, hamb]
  exact ⟨rfl, rfl⟩

/-- Witness for C7 at the example declaration `I32RefMut`. -/
theorem c7_adapters_delegate_witness :
    derive_reborrow i32RefMutInput = Except.ok i32RefMutImpls
    ∧ (i32RefMutImpls.asGeneralizedRefBody = PlainBody.callRbSelf
      ∧ i32RefMutImpls.asGeneralizedMutBody = PlainBody.callRbMutSelf
      ∧ ∀ (V : Type) (rbMutF rbF : V → V) (recv : V),
          evalPlain rbMutF rbF i32RefMutImpls.asGeneralizedRefBody recv = rbF recv
          ∧ evalPlain rbMutF rbF i32RefMutImpls.asGeneralizedMutBody recv
              = rbMutF recv) :=
  ⟨rfl, c7_adapters_delegate i32RefMutInput i32RefMutImpls rfl⟩

/-- Claim C5: on a zero-field record, generation succeeds and all three
operations construct their target with no field expressions; but contrary
to the claim's final part, the `into_const` construction is emitted at
the substituted fresh lifetime, not at the original lifetimes — it even
disagrees with the `Target` type declared in the very impl it sits in. -/
theorem c5_unit_into_const_uses_substituted_lifetimes :
    derive_reborrow unitLifetimeInput = Except.ok
      { intoConstTarget := ⟨"MConst", [GenericParam.lifetime "'a"]⟩
        intoConstBody := Body.unitCtor "MConst" [GenericParam.lifetime reborrowedLifetime]
        rbMutTarget := ⟨"M", [GenericParam.lifetime reborrowedLifetime]⟩
        rbMutBody := Body.unitCtor "M" [GenericParam.lifetime reborrowedLifetime]
        rbTarget := ⟨"MConst", [GenericParam.lifetime reborrowedLifetime]⟩
        rbBody := Body.unitCtor "MConst" [GenericParam.lifetime reborrowedLifetime]
        asGeneralizedMutBody := PlainBody.callRbMutSelf
        asGeneralizedRefBody := PlainBody.callRbSelf }
    ∧ Body.unitCtor "MConst" [GenericParam.lifetime reborrowedLifetime]
        ≠ Body.unitCtor "MConst" unitLifetimeInput.generics :=
  ⟨rfl, by decide⟩

/-- Claim C6 is refuted: a union declaration — which supplies the
counterpart attribute and is not a tagged-union (enum) declaration, so it
falls outside the claim's two listed failure cases — still makes
generation fail. -/
theorem c6_union_also_fails :
    derive_reborrow unionInput
        = Except.error "reborrow-derive does not support unions."
    ∧ findConstAttr unionInput.attrs ≠ none
    ∧ unionInput.data ≠ Data.enum_ :=
  ⟨rfl, by decide, by decide⟩

/-- Claim C6 (amended): generation fails exactly in these cases, each at
generation time with its message: missing `Const` attribute; `Const`
attribute whose tokens are not a parenthesized type; enum declarations;
union declarations.  On every struct declaration with a well-formed
`Const` attribute generation succeeds, and the generated operations are
total constructions exposing no fallible operation. -/
theorem c6_failure_cases (input : DeriveInput) :
    (findConstAttr input.attrs = none →
      derive_reborrow input
        = Except.error "Const reborrowed type must be specified.")
    ∧ (∀ a, findConstAttr input.attrs = some a → parseTypeParen a.tokens = none →
        derive_reborrow input
          = Except.error "Const attribute tokens do not parse as a parenthesized type.")
    ∧ ((getConstName input).isSome → input.data = Data.enum_ →
        derive_reborrow input
          = Except.error "reborrow-derive does not support enums.")
    ∧ ((getConstName input).isSome → input.data = Data.union_ →
        derive_reborrow input
          = Except.error "reborrow-derive does not support unions.")
    ∧ (∀ flds, (getConstName input).isSome → input.data = Data.struct_ flds →
        (derive_reborrow input).isOk = true) := by
  refine ⟨?_, ?_, ?_, ?_, ?_⟩
  · intro h
    simp [derive_reborrow, h]
  · intro a ha hp
    simp [derive_reborrow, ha, hp]
  · intro hs hd
    cases hfind : findConstAttr input.attrs with
    | none => simp [getConstName, hfind] at hs
    | some a =>
      cases hparse : parseTypeParen a.tokens with
      | none => simp [getConstName, hfind, hparse] at hs
      | some c => simp [derive_reborrow, hfind, hparse, hd]
  · intro hs hd
    cases hfind : findConstAttr input.attrs with
    | none => simp [getConstName, hfind] at hs
    | some a =>
      cases hparse : parseTypeParen a.tokens with
      | none => simp [getConstName, hfind, hparse] at hs
      | some c => simp [derive_reborrow, hfind, hparse, hd]
  · intro flds hs hd
    cases hfind : findConstAttr input.attrs with
    | none => simp [getConstName, hfind] at hs
    | some a =>
      cases hparse : parseTypeParen a.tokens with
      | none => simp [getConstName, hfind, hparse] at hs
      | some c =>
        cases flds with
        | named f =>
          simp only [derive_reborrow, hfind, hparse, hd]
          rfl
        | unnamed f =>
          simp only [derive_reborrow, hfind, hparse, hd]
          rfl
        | unit =>
          simp only [derive_reborrow, hfind, hparse, hd]
          rfl

/-- Witness for the amended C6 at four concrete inputs, one per failure
case plus a success. -/
theorem c6_failure_cases_witness :
    derive_reborrow noConstInput
        = Except.error "Const reborrowed type must be specified."
    ∧ derive_reborrow enumInput
        = Except.error "reborrow-derive does not support enums."
    ∧ derive_reborrow unionInput
        = Except.error "reborrow-derive does not support unions."
    ∧ (derive_reborrow i32RefMutInput).isOk = true :=
  ⟨(c6_failure_cases noConstInput).1 rfl,
   (c6_failure_cases enumInput).2.2.1 rfl rfl,
   (c6_failure_cases unionInput).2.2.2.1 rfl rfl,
   (c6_failure_cases i32RefMutInput).2.2.2.2 (Fields.named i32RefMutFields) rfl rfl⟩

/-- Claim C3: the built-in mutable-reference instance of the View
Contract: `rb` yields a shared reference at the shorter lifetime to the
same referent, `rb_mut` a mutable reference at the shorter lifetime to
the same referent, and `into_const` a shared reference at the original,
unshortened lifetime to the same referent. -/
theorem c3_mut_ref_instance (short a : String) (T : RustTy) :
    (mutRefReborrow short a T).selfTy = RustTy.ref a true T
    ∧ (mutRefReborrow short a T).target = RustTy.ref short false T
    ∧ (mutRefReborrowMut short a T).selfTy = RustTy.ref a true T
    ∧ (mutRefReborrowMut short a T).target = RustTy.ref short true T
    ∧ (mutRefIntoConst a T).selfTy = RustTy.ref a true T
    ∧ (mutRefIntoConst a T).target = RustTy.ref a false T
    ∧ ∀ (V : Type) (f g : V → V) (p : V),
        evalPlain f g (mutRefReborrow short a T).body p = p
        ∧ evalPlain f g (mutRefReborrowMut short a T).body p = p
        ∧ evalPlain f g (mutRefIntoConst a T).body p = p :=
  ⟨rfl, rfl, rfl, rfl, rfl, rfl, fun V f g p => ⟨rfl, rfl, rfl⟩⟩

/-- Claim C9: the built-in shared-reference instance of the View
Contract: `rb` yields a reference at the shorter lifetime to the same
referent; `rb_mut` likewise yields a shared (never mutable) reference at
the shorter lifetime; `into_const` is the identity, with target equal to
the implementing type and body returning `self` unchanged. -/
theorem c9_shared_ref_instance (short a : String) (T : RustTy) :
    (sharedRefReborrow short a T).selfTy = RustTy.ref a false T
    ∧ (sharedRefReborrow short a T).target = RustTy.ref short false T
    ∧ (sharedRefReborrowMut short a T).selfTy = RustTy.ref a false T
    ∧ (sharedRefReborrowMut short a T).target = RustTy.ref short false T
    ∧ (sharedRefIntoConst a T).target = (sharedRefIntoConst a T).selfTy
    ∧ (sharedRefIntoConst a T).body = PlainBody.selfExpr
    ∧ ∀ (V : Type) (f g : V → V) (p : V),
        evalPlain f g (sharedRefReborrow short a T).body p = p
        ∧ evalPlain f g (sharedRefReborrowMut short a T).body p = p
        ∧ evalPlain f g (sharedRefIntoConst a T).body p = p :=
  ⟨rfl, rfl, rfl, rfl, rfl, rfl, fun V f g p => ⟨rfl, rfl, rfl⟩⟩

/-- Claim C4 is refuted on the success-or-error container: the
error-variant case does not short-circuit.  All three operations invoke
the error-payload operation, as `Err(0)` mapping to `Err(1)` under an
incrementing payload operation shows. -/
theorem c4_err_variant_recurses :
    resultRb (fun n : Nat => n) (fun n : Nat => n + 1) (RustResult.err 0)
        = RustResult.err 1
    ∧ resultRbMut (fun n : Nat => n) (fun n : Nat => n + 1) (RustResult.err 0)
        = RustResult.err 1
    ∧ resultIntoConst (fun n : Nat => n) (fun n : Nat => n + 1) (RustResult.err 0)
        = RustResult.err 1
    ∧ (RustResult.err 1 : RustResult Nat Nat) ≠ RustResult.err 0 :=
  ⟨rfl, rfl, rfl, by decide⟩

/-- Claim C4 (amended): for the optional-value container the absent case
short-circuits — it maps to `None` for every payload operation, invoking
none of them — and the present case recurses exactly once into the
payload with the matching operation; for the success-or-error container
both variants recurse exactly once into their payload with the matching
operation; in every case the output variant equals the input variant. -/
theorem c4_container_dispatch :
    (∀ (α α' : Type) (f : α → α'),
        optionRb f none = none ∧ optionRbMut f none = none
        ∧ optionIntoConst f none = none)
    ∧ (∀ (α α' : Type) (f : α → α') (x : α),
        optionRb f (some x) = some (f x) ∧ optionRbMut f (some x) = some (f x)
        ∧ optionIntoConst f (some x) = some (f x))
    ∧ (∀ (α α' ε ε' : Type) (f : α → α') (g : ε → ε') (x : α) (e : ε),
        resultRb f g (RustResult.ok x) = RustResult.ok (f x)
        ∧ resultRb f g (RustResult.err e) = RustResult.err (g e)
        ∧ resultRbMut f g (RustResult.ok x) = RustResult.ok (f x)
        ∧ resultRbMut f g (RustResult.err e) = RustResult.err (g e)
        ∧ resultIntoConst f g (RustResult.ok x) = RustResult.ok (f x)
        ∧ resultIntoConst f g (RustResult.err e) = RustResult.err (g e))
    ∧ (∀ (α α' : Type) (f : α → α') (o : Option α),
        (optionRb f o).isSome = o.isSome)
    ∧ (∀ (α α' ε ε' : Type) (f : α → α') (g : ε → ε') (r : RustResult α ε),
        (resultRb f g r).isOk = r.isOk) := by
  refine ⟨fun α α' f => ⟨rfl, rfl, rfl⟩, fun α α' f x => ⟨rfl, rfl, rfl⟩,
    fun α α' ε ε' f g x e => ⟨rfl, rfl, rfl, rfl, rfl, rfl⟩, ?_, ?_⟩
  · intro α α' f o
    cases o <;> rfl
  · intro α α' ε ε' f g r
    cases r <;> rfl

/-- Claim C10: in the duplicate-all mode the generator additionally emits
`Copy` and `Clone` for the record (clone is the bitwise copy `*self`),
every one of the five operations — `rb`, `rb_mut`, `into_const` and both
adapters — returns a plain duplicate of the receiver, and `into_const`
targets the record's own type at its original generics rather than a
separate counterpart, so the receiver stays usable after every
operation. -/
theorem c10_copy_mode (input : DeriveInput) :
    (derive_reborrow_copy input).copyImplFor = ⟨input.ident, input.generics⟩
    ∧ (derive_reborrow_copy input).cloneBody = PlainBody.derefSelf
    ∧ (derive_reborrow_copy input).intoConstTarget = ⟨input.ident, input.generics⟩
    ∧ (derive_reborrow_copy input).rbMutTarget
        = ⟨input.ident, substLifetimes input.generics⟩
    ∧ (derive_reborrow_copy input).rbTarget
        = ⟨input.ident, substLifetimes input.generics⟩
    ∧ ∀ (V : Type) (f g : V → V) (v : V),
        evalPlain f g (derive_reborrow_copy input).cloneBody v = v
        ∧ evalPlain f g (derive_reborrow_copy input).intoConstBody v = v
        ∧ evalPlain f g (derive_reborrow_copy input).rbMutBody v = v
        ∧ evalPlain f g (derive_reborrow_copy input).rbBody v = v
        ∧ evalPlain f g (derive_reborrow_copy input).asGeneralizedMutBody v = v
        ∧ evalPlain f g (derive_reborrow_copy input).asGeneralizedRefBody v = v :=
  ⟨rfl, rfl, rfl, rfl, rfl, fun V f g v => ⟨rfl, rfl, rfl, rfl, rfl, rfl⟩⟩

theorem get?_zip_eq_some {α β : Type} (l₁ : List α) (l₂ : List β) (j : Nat)
    (a : α) (b : β) (h₁ : l₁.get? j = some a) (h₂ : l₂.get? j = some b) :
    (l₁.zip l₂).get? j = some (a, b) := by
  induction l₁ generalizing l₂ j with
  | nil => simp at h₁
  | cons x t ih =>
    cases l₂ with
    | nil => simp at h₂
    | cons y t₂ =>
      cases j with
      | zero =>
        obtain rfl := Option.some.inj h₁
        obtain rfl := Option.some.inj h₂
        rfl
      | succ j' =>
        exact ih t₂ j' h₁ h₂

theorem lookupNamed_zip {V : Type} (names : List (Option String)) (vs : List V)
    (i : Nat) (n : String)
    (hn : names.get? i = some (some n))
    (hfirst : ∀ j, j < i → names.get? j ≠ some (some n))
    (hlen : names.length = vs.length) :
    lookupNamed n (names.zip vs) = vs.get? i := by
  induction names generalizing vs i with
  | nil => simp at hn
  | cons hd tl ih =>
    cases vs with
    | nil => simp at hlen
    | cons v vt =>
      have hlen' : tl.length = vt.length := by simpa using hlen
      cases i with
      | zero =>
        obtain rfl : hd = some n := Option.some.inj hn
        simp [lookupNamed]
      | succ i' =>
        have hn' : tl.get? i' = some (some n) := hn
        have hfirst' : ∀ j, j < i' → tl.get? j ≠ some (some n) := fun j hj =>
          hfirst (j + 1) (by omega)
        cases hd with
        | none =>
          simp only [List.zip_cons_cons, lookupNamed]
          exact ih vt i' hn' hfirst' hlen'
        | some m =>
          have hm : ¬(m = n) := fun h => hfirst 0 (Nat.succ_pos i') (by simp [h])
          simp only [List.zip_cons_cons, lookupNamed]
          rw [if_neg (by simpa using hm)]
          exact ih vt i' hn' hfirst' hlen'

theorem evalExpr_byIndex {V : Type} (ops : FieldOps V)
    (names : List (Option String)) (vs : List V) (j : Nat)
    (hlen : names.length = vs.length) :
    evalExpr ops (names.zip vs) (Expr.fieldAccess (FieldRef.byIndex j)) = vs.get? j := by
  simp only [evalExpr]
  rw [← List.get?_map, map_snd_zip_of_length_eq _ _ hlen]

theorem evalExpr_policy_pair {V : Type} (ops : FieldOps V)
    (envN envU : List (Option String × V)) (i : Nat) (fN fU : Field)
    (hty : fN.ty = fU.ty) (hpol : is_reborrowable fN = is_reborrowable fU)
    (hacc : evalExpr ops envN (accessExpr i fN) = evalExpr ops envU (accessExpr i fU)) :
    evalExpr ops envN ((reborrow_exprs i fN).1)
        = evalExpr ops envU ((reborrow_exprs i fU).1)
    ∧ evalExpr ops envN ((reborrow_exprs i fN).2.1)
        = evalExpr ops envU ((reborrow_exprs i fU).2.1)
    ∧ evalExpr ops envN ((reborrow_exprs i fN).2.2)
        = evalExpr ops envU ((reborrow_exprs i fU).2.2) := by
  rw [reborrow_exprs_eq i fN, reborrow_exprs_eq i fU, ← hpol, ← hty]
  cases hr : is_reborrowable fN
  · simp only [hr, Bool.false_eq_true, if_false]
    exact ⟨hacc, hacc, hacc⟩
  · simp only [hr, if_true]
    refine ⟨?_, ?_, ?_⟩ <;> simp [evalExpr, hacc]

theorem evalExprs_congr {V : Type} (ops : FieldOps V)
    (envN envU : List (Option String × V)) (l₁ l₂ : List Expr)
    (hlen : l₁.length = l₂.length)
    (h : ∀ j e₁ e₂, l₁.get? j = some e₁ → l₂.get? j = some e₂ →
        evalExpr ops envN e₁ = evalExpr ops envU e₂) :
    evalExprs ops envN l₁ = evalExprs ops envU l₂ := by
  induction l₁ generalizing l₂ with
  | nil =>
    cases l₂ with
    | nil => rfl
    | cons b t => simp at hlen
  | cons e₁ t₁ ih =>
    cases l₂ with
    | nil => simp at hlen
    | cons e₂ t₂ =>
      simp only [evalExprs]
      rw [h 0 e₁ e₂ rfl rfl,
        ih t₂ (by simpa using hlen)
          (fun j a b ha hb => h (j + 1) a b ha hb)]

/-- Claim C8: for every pair of record declarations with equal field
count, pointwise equal field types and policies, one using named fields
(with distinct field names) and one using positional fields, the three
generated operations produce identical behavior: evaluated against the
same ordered field values, the generated `rb_mut`, `rb` and `into_const`
bodies yield equal field-value lists, with the same per-field policy
dispatch and recursion in declaration order. -/
theorem c8_named_positional_equivalent {V : Type} (ops : FieldOps V)
    (inN inU : DeriveInput) (fsN fsU : List Field)
    (implsN implsU : ReborrowImpls) (vs : List V)
    (hdN : inN.data = Data.struct_ (Fields.named fsN))
    (hdU : inU.data = Data.struct_ (Fields.unnamed fsU))
    (hokN : derive_reborrow inN = Except.ok implsN)
    (hokU : derive_reborrow inU = Except.ok implsU)
    (hlen : fsN.length = fsU.length)
    (hmatch : (fsN.zip fsU).all
      (fun p => p.1.ty == p.2.ty && (is_reborrowable p.1 == is_reborrowable p.2)) = true)
    (hnone : fsU.all (fun f => f.ident == none) = true)
    (hnodup : (fsN.map Field.ident).Nodup)
    (hvs : vs.length = fsN.length) :
    evalBody ops ((fsN.map Field.ident).zip vs) implsN.rbMutBody
      = evalBody ops ((fsU.map Field.ident).zip vs) implsU.rbMutBody
    ∧ evalBody ops ((fsN.map Field.ident).zip vs) implsN.rbBody
      = evalBody ops ((fsU.map Field.ident).zip vs) implsU.rbBody
    ∧ evalBody ops ((fsN.map Field.ident).zip vs) implsN.intoConstBody
      = evalBody ops ((fsU.map Field.ident).zip vs) implsU.intoConstBody := by
  have hfsN : structFields inN.data = some fsN := by rw [hdN]; rfl
  have hfsU : structFields inU.data = some fsU := by rw [hdU]; rfl
  obtain ⟨hN1, hN2, hN3⟩ := derive_bodyExprs inN implsN fsN hokN hfsN
  obtain ⟨hU1, hU2, hU3⟩ := derive_bodyExprs inU implsU fsU hokU hfsU
  have hlenN : (fsN.map Field.ident).length = vs.length := by simp [hvs]
  have hlenU : (fsU.map Field.ident).length = vs.length := by
    simp only [List.length_map]
    omega
  have hPair : ∀ j fN fU, fsN.get? j = some fN → fsU.get? j = some fU →
      fN.ty = fU.ty ∧ is_reborrowable fN = is_reborrowable fU := by
    intro j fN fU hfN hfU
    have hz : (fsN.zip fsU).get? j = some (fN, fU) :=
      get?_zip_eq_some fsN fsU j fN fU hfN hfU
    have := List.all_eq_true.mp hmatch (fN, fU) (List.get?_mem hz)
    simpa using this
  have hAcc : ∀ j fN fU, fsN.get? j = some fN → fsU.get? j = some fU →
      evalExpr ops ((fsN.map Field.ident).zip vs) (accessExpr j fN)
        = evalExpr ops ((fsU.map Field.ident).zip vs) (accessExpr j fU) := by
    intro j fN fU hfN hfU
    have hUnone : fU.ident = none := by
      have := List.all_eq_true.mp hnone fU (List.get?_mem hfU)
      simpa using this
    have hU : evalExpr ops ((fsU.map Field.ident).zip vs) (accessExpr j fU)
        = vs.get? j := by
      simp only [accessExpr, hUnone]
      exact evalExpr_byIndex ops _ vs j hlenU
    have hN : evalExpr ops ((fsN.map Field.ident).zip vs) (accessExpr j fN)
        = vs.get? j := by
      cases hid : fN.ident with
      | none =>
        simp only [accessExpr, hid]
        exact evalExpr_byIndex ops _ vs j hlenN
      | some n =>
        simp only [accessExpr, hid, evalExpr]
        apply lookupNamed_zip _ _ j n _ _ hlenN
        · rw [List.get?_map, hfN]
          simp [hid]
        · intro j' hj' hcontra
          have hj : (fsN.map Field.ident).get? j = some (some n) := by
            rw [List.get?_map, hfN]
            simp [hid]
          have hlt : j' < (fsN.map Field.ident).length :=
            (List.get?_eq_some.mp hcontra).1
          have : j' = j := List.get?_inj hlt hnodup (hcontra.trans hj.symm)
          omega
    rw [hN, hU]
  have hPoint : ∀ j fN fU, fsN.get? j = some fN → fsU.get? j = some fU →
      (evalExpr ops ((fsN.map Field.ident).zip vs) ((reborrow_exprs j fN).1)
        = evalExpr ops ((fsU.map Field.ident).zip vs) ((reborrow_exprs j fU).1))
      ∧ (evalExpr ops ((fsN.map Field.ident).zip vs) ((reborrow_exprs j fN).2.1)
        = evalExpr ops ((fsU.map Field.ident).zip vs) ((reborrow_exprs j fU).2.1))
      ∧ (evalExpr ops ((fsN.map Field.ident).zip vs) ((reborrow_exprs j fN).2.2)
        = evalExpr ops ((fsU.map Field.ident).zip vs) ((reborrow_exprs j fU).2.2)) :=
    fun j fN fU hfN hfU =>
      evalExpr_policy_pair ops _ _ j fN fU (hPair j fN fU hfN hfU).1
        (hPair j fN fU hfN hfU).2 (hAcc j fN fU hfN hfU)
  have hlens : (fsN.enum.map (fun p => (reborrow_exprs p.1 p.2).1)).length
      = (fsU.enum.map (fun p => (reborrow_exprs p.1 p.2).1)).length := by
    simp [hlen]
  refine ⟨?_, ?_, ?_⟩
  · simp only [evalBody]
    rw [hN1, hU1]
    refine evalExprs_congr ops _ _ _ _ (by simp [hlen]) ?_
    intro j e₁ e₂ h₁ h₂
    rw [get?_enum_map] at h₁ h₂
    cases hfN : fsN.get? j with
    | none => rw [hfN] at h₁; simp at h₁
    | some fN =>
      rw [hfN] at h₁
      cases hfU : fsU.get? j with
      | none => rw [hfU] at h₂; simp at h₂
      | some fU =>
        rw [hfU] at h₂
        obtain rfl := Option.some.inj h₁
        obtain rfl := Option.some.inj h₂
        exact (hPoint j fN fU hfN hfU).1
  · simp only [evalBody]
    rw [hN2, hU2]
    refine evalExprs_congr ops _ _ _ _ (by simp [hlen]) ?_
    intro j e₁ e₂ h₁ h₂
    rw [get?_enum_map] at h₁ h₂
    cases hfN : fsN.get? j with
    | none => rw [hfN] at h₁; simp at h₁
    | some fN =>
      rw [hfN] at h₁
      cases hfU : fsU.get? j with
      | none => rw [hfU] at h₂; simp at h₂
      | some fU =>
        rw [hfU] at h₂
        obtain rfl := Option.some.inj h₁
        obtain rfl := Option.some.inj h₂
        exact (hPoint j fN fU hfN hfU).2.1
  · simp only [evalBody]
    rw [hN3, hU3]
    refine evalExprs_congr ops _ _ _ _ (by simp [hlen]) ?_
    intro j e₁ e₂ h₁ h₂
    rw [get?_enum_map] at h₁ h₂
    cases hfN : fsN.get? j with
    | none => rw [hfN] at h₁; simp at h₁
    | some fN =>
      rw [hfN] at h₁
      cases hfU : fsU.get? j with
      | none => rw [hfU] at h₂; simp at h₂
      | some fU =>
        rw [hfU] at h₂
        obtain rfl := Option.some.inj h₁
        obtain rfl := Option.some.inj h₂
        exact (hPoint j fN fU hfN hfU).2.2

example : derive_reborrow i32TupleRefMutInput = Except.ok i32TupleRefMutImpls := rfl

/-- Witness for C8 at the example pair `I32RefMut` / `I32TupleRefMut`,
with field values 10, 20, 30. -/
theorem c8_named_positional_equivalent_witness :
    derive_reborrow i32RefMutInput = Except.ok i32RefMutImpls
    ∧ derive_reborrow i32TupleRefMutInput = Except.ok i32TupleRefMutImpls
    ∧ (evalBody c8FieldOps ((i32RefMutFields.map Field.ident).zip [10, 20, 30])
          i32RefMutImpls.rbMutBody
        = evalBody c8FieldOps ((i32TupleRefMutFields.map Field.ident).zip [10, 20, 30])
            i32TupleRefMutImpls.rbMutBody
      ∧ evalBody c8FieldOps ((i32RefMutFields.map Field.ident).zip [10, 20, 30])
          i32RefMutImpls.rbBody
        = evalBody c8FieldOps ((i32TupleRefMutFields.map Field.ident).zip [10, 20, 30])
            i32TupleRefMutImpls.rbBody
      ∧ evalBody c8FieldOps ((i32RefMutFields.map Field.ident).zip [10, 20, 30])
          i32RefMutImpls.intoConstBody
        = evalBody c8FieldOps ((i32TupleRefMutFields.map Field.ident).zip [10, 20, 30])
            i32TupleRefMutImpls.intoConstBody) :=
  ⟨rfl, rfl,
    c8_named_positional_equivalent c8FieldOps i32RefMutInput i32TupleRefMutInput
      i32RefMutFields i32TupleRefMutFields i32RefMutImpls i32TupleRefMutImpls
      [10, 20, 30] rfl rfl rfl rfl rfl (by decide) (by decide) (by decide) rfl⟩

/-- Witness for C3 at concrete lifetimes, payload type and referent
value. -/
theorem c3_mut_ref_instance_witness :
    (mutRefReborrow "'s" "'a" (RustTy.base "i32")).target
        = RustTy.ref "'s" false (RustTy.base "i32")
    ∧ evalPlain (fun v : Nat => v) (fun v : Nat => v)
        (mutRefReborrow "'s" "'a" (RustTy.base "i32")).body 7 = 7 :=
  ⟨(c3_mut_ref_instance "'s" "'a" (RustTy.base "i32")).2.1,
   ((c3_mut_ref_instance "'s" "'a" (RustTy.base "i32")).2.2.2.2.2.2
      Nat (fun v => v) (fun v => v) 7).1⟩

/-- Witness for C9 at concrete lifetimes, payload type and referent
value. -/
theorem c9_shared_ref_instance_witness :
    (sharedRefIntoConst "'a" (RustTy.base "i32")).target
        = (sharedRefIntoConst "'a" (RustTy.base "i32")).selfTy
    ∧ evalPlain (fun v : Nat => v) (fun v : Nat => v)
        (sharedRefIntoConst "'a" (RustTy.base "i32")).body 7 = 7 :=
  ⟨(c9_shared_ref_instance "'s" "'a" (RustTy.base "i32")).2.2.2.2.1,
   ((c9_shared_ref_instance "'s" "'a" (RustTy.base "i32")).2.2.2.2.2.2
      Nat (fun v => v) (fun v => v) 7).2.2⟩

/-- Witness for C10 at the example declaration and a concrete receiver
value. -/
theorem c10_copy_mode_witness :
    (derive_reborrow_copy i32RefMutInput).cloneBody = PlainBody.derefSelf
    ∧ evalPlain (fun v : Nat => v) (fun v : Nat => v)
        (derive_reborrow_copy i32RefMutInput).rbBody 7 = 7 :=
  ⟨(c10_copy_mode i32RefMutInput).2.1,
   ((c10_copy_mode i32RefMutInput).2.2.2.2.2
      Nat (fun v => v) (fun v => v) 7).2.2.2.1⟩

end ReborrowSpec
